import Mathlib

/-!
Shallow embedding of the test-harness body generated by `parse` in
`src/madsim-macros/src/lib.rs` (lines 74-115), together with the
configuration resolution it performs from environment variables.

The generated Rust code reads `MADSIM_TEST_SEED`, `MADSIM_TEST_NUM`,
`MADSIM_TEST_TIME_LIMIT` and `MADSIM_TEST_CHECK_DETERMINISTIC` from the
process environment, then runs a loop of iterations, each of which creates
a fresh `madsim::Runtime`, optionally enables the determinism check with
the previous iteration's rand log, optionally sets a time limit, runs the
test body, and takes the rand log.  A panic in an iteration prints
`MADSIM_TEST_SEED=<seed>` and resumes the unwind.

Machine integers are modelled as `Nat` with explicit range checks where the
Rust parser enforces them (`u64` parsing rejects values at or above 2^64),
and with an explicit `% 2^64` where the source performs `u64` arithmetic
(the per-iteration `seed + i` of line 96; wrapping is the release-build
semantics of the `u64` sum).  The `f64` time-limit value is modelled as
either an exact rational (for decimal literals) or one of the special
values `inf`/`nan` that Rust's float parser also accepts; the conversion
`Duration::from_secs_f64` at line 104, which panics on negative,
non-finite or oversized values, is modelled exactly (only the float
rounding of a decimal literal is abstracted by the exact rational).
Panics are modelled as `Except` errors.
-/

namespace Madsim

/-- Value of a list of ASCII digit characters read in base 10, exactly the
accumulation performed by Rust's integer parsing: `a * 10 + digit`. -/
def digitsToNat (l : List Char) : Nat :=
  List.foldl (fun a c => a * 10 + (c.toNat - 48)) 0 l

/-- Embedding of `str::parse::<u64>` on a list of characters that has already
had an optional leading `+` removed: one or more ASCII digits whose value
fits in 64 bits. -/
def parseDigits (l : List Char) : Option Nat :=
  if l = [] then none
  else if l.all Char.isDigit then
    if digitsToNat l < 2 ^ 64 then some (digitsToNat l) else none
  else none

/-- Embedding of `str::parse::<u64>` (as used for `MADSIM_TEST_SEED` and
`MADSIM_TEST_NUM`): an optional leading `+`, then digits, value below 2^64.
A leading `-` is not accepted: `u64` is unsigned. -/
def parseU64 (s : String) : Option Nat :=
  match s.toList with
  | [] => none
  | c :: rest => if c = '+' then parseDigits rest else parseDigits (c :: rest)

/-- Exponent suffix of a decimal float literal: empty, or `e`/`E`, an
optional sign, and one or more digits. -/
def parseExp (l : List Char) : Option Int :=
  match l with
  | [] => some 0
  | c :: rest =>
    if c = 'e' ∨ c = 'E' then
      let signAndDigits : Bool × List Char :=
        match rest with
        | '-' :: r => (true, r)
        | '+' :: r => (false, r)
        | r => (false, r)
      if signAndDigits.2 ≠ [] ∧ signAndDigits.2.all Char.isDigit then
        let m : Int := (digitsToNat signAndDigits.2 : Int)
        some (if signAndDigits.1 then -m else m)
      else none
    else none

/-- Exact rational value of a decimal literal with optional sign, integer
part `ip`, fractional part `fp` and decimal exponent `e`. -/
def decimalVal (neg : Bool) (ip fp : List Char) (e : Int) : Rat :=
  let m : Rat := (digitsToNat ip : Rat) + (digitsToNat fp : Rat) / (10 : Rat) ^ fp.length
  let v : Rat := m * (10 : Rat) ^ e
  if neg then -v else v

/-- An `f64` value as produced by Rust's float parser: a finite value
(kept as the exact rational of the decimal literal), an infinity with its
sign, or a NaN. -/
inductive FloatVal where
  | finite (q : Rat)
  | inf (neg : Bool)
  | nan
deriving DecidableEq

/-- Embedding of `str::parse::<f64>` (as used for `MADSIM_TEST_TIME_LIMIT`):
an optional sign, then either one of the special forms `inf`, `infinity`,
`nan` (case-insensitive), or a decimal literal — digits with an optional
`.` and fractional digits (at least one digit overall) and an optional
exponent. -/
def parseF64 (s : String) : Option FloatVal :=
  let signAndBody : Bool × List Char :=
    match s.toList with
    | '-' :: r => (true, r)
    | '+' :: r => (false, r)
    | r => (false, r)
  let l1 := signAndBody.2
  let low := l1.map Char.toLower
  if low = ['i', 'n', 'f'] ∨ low = ['i', 'n', 'f', 'i', 'n', 'i', 't', 'y'] then
    some (FloatVal.inf signAndBody.1)
  else if low = ['n', 'a', 'n'] then
    some FloatVal.nan
  else
    let ip := l1.takeWhile Char.isDigit
    let r1 := l1.dropWhile Char.isDigit
    match r1 with
    | '.' :: r2 =>
      let fp := r2.takeWhile Char.isDigit
      let r3 := r2.dropWhile Char.isDigit
      if ip = [] ∧ fp = [] then none
      else
        match parseExp r3 with
        | some e => some (FloatVal.finite (decimalVal signAndBody.1 ip fp e))
        | none => none
    | _ =>
      if ip = [] then none
      else
        match parseExp r1 with
        | some e => some (FloatVal.finite (decimalVal signAndBody.1 ip [] e))
        | none => none

/-- Embedding of `Duration::from_secs_f64` (line 104 of the source): the
conversion panics (`none`) when the seconds value is negative, not finite,
or overflows `Duration` (at or above 2^64 seconds); otherwise it yields
the duration, kept as the exact rational seconds value. -/
def durFromSecsF64 (v : FloatVal) : Option Rat :=
  match v with
  | FloatVal.finite q => if 0 ≤ q ∧ q < 2 ^ 64 then some q else none
  | FloatVal.inf _ => none
  | FloatVal.nan => none

/-- The per-iteration outcome of the `if let Some(limit) = time_limit_s`
block before `set_time_limit` is reached: no limit configured (`ok none`),
a convertible limit (`ok (some d)`), or a `Duration::from_secs_f64` panic
(`error`). -/
def durOf (tl : Option FloatVal) : Except Unit (Option Rat) :=
  match tl with
  | none => Except.ok none
  | some v =>
    match durFromSecsF64 v with
    | some d => Except.ok (some d)
    | none => Except.error ()

/-- The process environment as seen by the generated harness body: the four
`MADSIM_TEST_*` variables (`none` = unset, `some s` = set to string `s`),
and the current time `now` in seconds since `UNIX_EPOCH` as an exact
nonnegative rational (`SystemTime::now().duration_since(UNIX_EPOCH)`). -/
structure Env where
  seedVar : Option String
  numVar : Option String
  timeLimitVar : Option String
  checkVar : Option String
  now : Rat
deriving DecidableEq

/-- `Duration::as_secs`: whole seconds of the current time. -/
def asSecs (t : Rat) : Nat := (⌊t⌋).toNat

/-- A configuration option that is present but fails to parse; each
constructor corresponds to one `.expect(...)` panic message in the
generated body. -/
inductive ConfigError where
  | badSeed
  | badNum
  | badTimeLimit
deriving DecidableEq

/-- The resolved run configuration: `seed`, `count`, `time_limit` and
`check` exactly as the local variables of the generated body after lines
77-93 of `src/madsim-macros/src/lib.rs`. -/
structure RunConfig where
  seed : Nat
  count : Nat
  time_limit : Option FloatVal
  check : Bool
deriving DecidableEq

/-- Lines 77-81: `MADSIM_TEST_SEED` parsed as `u64` if set, else the current
time in whole seconds since the epoch. -/
def resolveSeed (env : Env) : Except ConfigError Nat :=
  match env.seedVar with
  | some s =>
    match parseU64 s with
    | some n => Except.ok n
    | none => Except.error ConfigError.badSeed
  | none => Except.ok (asSecs env.now)

/-- Lines 82-86: `MADSIM_TEST_NUM` parsed as `u64` if set, else 1. -/
def resolveNum (env : Env) : Except ConfigError Nat :=
  match env.numVar with
  | some s =>
    match parseU64 s with
    | some n => Except.ok n
    | none => Except.error ConfigError.badNum
  | none => Except.ok 1

/-- Lines 87-89: `MADSIM_TEST_TIME_LIMIT` parsed as `f64` if set, else no
limit. -/
def resolveTimeLimit (env : Env) : Except ConfigError (Option FloatVal) :=
  match env.timeLimitVar with
  | some s =>
    match parseF64 s with
    | some d => Except.ok (some d)
    | none => Except.error ConfigError.badTimeLimit
  | none => Except.ok none

/-- Lines 77-93 of the generated body: resolve `seed`, `count`,
`time_limit_s` and `check` in that order (each `.expect` panics
immediately, so the first malformed variable in this order aborts), with
`check = MADSIM_TEST_CHECK_DETERMINISTIC is set` (any value), and `count`
forced to 2 when `check` holds. -/
def resolveConfig (env : Env) : Except ConfigError RunConfig :=
  match resolveSeed env with
  | Except.error e => Except.error e
  | Except.ok seed =>
    match resolveNum env with
    | Except.error e => Except.error e
    | Except.ok count0 =>
      match resolveTimeLimit env with
      | Except.error e => Except.error e
      | Except.ok tl =>
        let check := env.checkVar.isSome
        Except.ok ⟨seed, if check then 2 else count0, tl, check⟩

/-- Digit-production loop for decimal rendering, written with structural
fuel (any fuel above the digit count gives the digits of `n`, most
significant first). -/
def natDigitsAux : Nat → Nat → List Char
  | 0, _ => []
  | fuel + 1, n =>
    if n < 10 then [Char.ofNat (48 + n)]
    else natDigitsAux fuel (n / 10) ++ [Char.ofNat (48 + n % 10)]

/-- Decimal digit characters of `n`, most significant first (the rendering
of `u64` by `Display`, used by the `println!` that reports the seed). -/
def natDigits (n : Nat) : List Char := natDigitsAux (n + 1) n

/-- Decimal rendering of `n`, as printed for the seed. -/
def toDecimalString (n : Nat) : String := String.mk (natDigits n)

/-- The line printed on an iteration failure (line 110 of the source):
the option name, `=`, and the seed of the failing iteration. -/
def seedLine (seed : Nat) : String := "MADSIM_TEST_SEED=" ++ toDecimalString seed

variable {RL E : Type}

/-- One call made on the per-iteration `madsim::Runtime` adapter, or the
execution of the test body under it.  `RL` is the opaque rand-log type. -/
inductive Event (RL : Type) where
  | create (seed : Nat)
  | enableCheck (log : Option RL)
  | setTimeLimit (d : Rat)
  | runBody
  | takeLog
deriving DecidableEq

/-- A failure escaping the harness: a configuration-parsing panic (one of
the `.expect` calls, before any iteration), the `Duration::from_secs_f64`
panic of line 104 (caught and re-raised like any iteration panic), or the
re-raised panic of a failed test body carrying the original payload `E`
unchanged. -/
inductive HarnessError (E : Type) where
  | config (err : ConfigError)
  | duration
  | test (err : E)
deriving DecidableEq

/-- What a harness invocation did: the adapter-call trace of each executed
iteration in order, the lines printed, and the final outcome. -/
structure HarnessResult (RL E : Type) where
  iters : List (List (Event RL))
  printed : List String
  outcome : Except (HarnessError E) Unit

/-- The seed used by iteration `i` (line 96 of the source):
`if check then seed else seed + i`, where `seed + i` is a `u64` sum and so
wraps modulo 2^64 (release-build semantics; a debug build would abort on
overflow instead). -/
def iterSeed (check : Bool) (base i : Nat) : Nat :=
  if check then base else (base + i) % 2 ^ 64

/-- The adapter-call trace of one iteration whose `Duration` conversion
did not panic (the closure of lines 98-108): create the runtime from the
seed, enable the determinism check with the previous log when `check` is
set, set the converted time limit `dur` when one is configured, run the
body, and take the rand log on success.  A panic of the body is attributed
to the body-execution step, so a failing iteration's trace stops after
`runBody`. -/
def iterTrace (check : Bool) (seed : Nat) (log0 : Option RL) (dur : Option Rat)
    (res : Except E (Option RL)) : List (Event RL) :=
  Event.create seed ::
    ((if check then [Event.enableCheck log0] else []) ++
      (match dur with
       | some d => [Event.setTimeLimit d]
       | none => []) ++
      [Event.runBody] ++
      (match res with
       | Except.ok _ => [Event.takeLog]
       | Except.error _ => []))

/-- The adapter-call trace of an iteration that panics inside
`Duration::from_secs_f64` (line 104): the runtime was created and, in check
mode, the determinism check enabled, but `set_time_limit` is never called
and the body never runs. -/
def iterTraceDur (check : Bool) (seed : Nat) (log0 : Option RL) : List (Event RL) :=
  Event.create seed :: (if check then [Event.enableCheck log0] else [])

/-- The `for i in 0..count` loop of lines 95-114, written with `fuel` for
the remaining iterations (`fuel = count - i` initially).  Each iteration's
closure first converts the configured time limit (a panic there stops at
`iterTraceDur`, before `set_time_limit` and before the body); then
`oracle i` is the result of the body: `Except.ok log` when the closure
returns the taken rand log, `Except.error e` when the body panics with
payload `e`.  On any panic the loop prints the seed line and re-raises;
on success the taken log is threaded to the next iteration. -/
def runLoop (check : Bool) (base : Nat) (tl : Option FloatVal)
    (oracle : Nat → Except E (Option RL)) :
    Nat → Nat → Option RL → HarnessResult RL E
  | 0, _, _ => ⟨[], [], Except.ok ()⟩
  | fuel + 1, i, log =>
    let s := iterSeed check base i
    match durOf tl with
    | Except.error _ =>
      ⟨[iterTraceDur check s log], [seedLine s], Except.error HarnessError.duration⟩
    | Except.ok dur =>
      match oracle i with
      | Except.error e =>
        ⟨[iterTrace check s log dur (Except.error e)], [seedLine s],
          Except.error (HarnessError.test e)⟩
      | Except.ok log2 =>
        let rest := runLoop check base tl oracle fuel (i + 1) log2
        ⟨iterTrace check s log dur (Except.ok log2 : Except E (Option RL)) :: rest.iters,
          rest.printed, rest.outcome⟩

/-- The whole generated harness body: resolve the configuration (a
malformed variable aborts at once, before any iteration), then run the
loop starting at iteration 0 with no previous rand log. -/
def runHarness (env : Env) (oracle : Nat → Except E (Option RL)) : HarnessResult RL E :=
  match resolveConfig env with
  | Except.error ce => ⟨[], [], Except.error (HarnessError.config ce)⟩
  | Except.ok cfg => runLoop cfg.check cfg.seed cfg.time_limit oracle cfg.count 0 none

/-- The seed an iteration trace was created with (argument of its leading
`create` call). -/
def iterSeedOf (it : List (Event RL)) : Option Nat :=
  match it with
  | Event.create s :: _ => some s
  | _ => none

/-- The seeds the executed iterations were created with, in order. -/
def seedsOfIters (its : List (List (Event RL))) : List Nat :=
  its.filterMap iterSeedOf

/-- The seeds the harness invocation created runtimes with, in order. -/
def seedsOf (r : HarnessResult RL E) : List Nat := seedsOfIters r.iters

/-- The rand log an iteration's `enable_deterministic_check` call received,
if the iteration made one. -/
def iterCheckLog (it : List (Event RL)) : Option (Option RL) :=
  it.findSome? fun ev =>
    match ev with
    | Event.enableCheck lg => some lg
    | _ => none

/-- The determinism-check logs supplied by the executed iterations, in
order. -/
def checkLogsOf (r : HarnessResult RL E) : List (Option RL) :=
  r.iters.filterMap iterCheckLog

/-- How many times the test body was executed during the invocation. -/
def bodyRunsOf (r : HarnessResult RL E) : Nat :=
  (r.iters.map fun it =>
    it.countP fun ev =>
      match ev with
      | Event.runBody => true
      | _ => false).sum

/-! ## Resolution-level lemmas -/

theorem resolveConfig_ok (env : Env) (cfg : RunConfig)
    (h : resolveConfig env = Except.ok cfg) :
    resolveSeed env = Except.ok cfg.seed ∧
    resolveTimeLimit env = Except.ok cfg.time_limit ∧
    cfg.check = env.checkVar.isSome ∧
    (cfg.check = true → cfg.count = 2) ∧
    (cfg.check = false → resolveNum env = Except.ok cfg.count) := by
  unfold resolveConfig at h
  cases hs : resolveSeed env with
  | error e => simp only [hs] at h; exact Except.noConfusion h
  | ok sd =>
    simp only [hs] at h
    cases hn : resolveNum env with
    | error e => simp only [hn] at h; exact Except.noConfusion h
    | ok count0 =>
      simp only [hn] at h
      cases ht : resolveTimeLimit env with
      | error e => simp only [ht] at h; exact Except.noConfusion h
      | ok tl =>
        simp only [ht, Except.ok.injEq] at h
        subst h
        refine ⟨rfl, rfl, rfl, fun hc => ?_, fun hc => ?_⟩
        · have hc2 : env.checkVar.isSome = true := hc
          show (if env.checkVar.isSome = true then 2 else count0) = 2
          rw [hc2]
          simp
        · have hc2 : env.checkVar.isSome = false := hc
          show Except.ok count0 =
            Except.ok (if env.checkVar.isSome = true then 2 else count0)
          rw [hc2]
          simp

theorem resolveSeed_default (env : Env) (h : env.seedVar = none) :
    resolveSeed env = Except.ok (asSecs env.now) := by
  simp only [resolveSeed, h]

theorem resolveTimeLimit_isSome (env : Env) (tl : Option FloatVal)
    (h : resolveTimeLimit env = Except.ok tl) :
    tl.isSome = env.timeLimitVar.isSome := by
  unfold resolveTimeLimit at h
  cases he : env.timeLimitVar with
  | none => simp only [he] at h; cases h; rfl
  | some s =>
    simp only [he] at h
    cases hp : parseF64 s with
    | none => simp only [hp] at h; exact Except.noConfusion h
    | some d => simp only [hp] at h; cases h; rfl

theorem resolve_error_of_malformed (env : Env)
    (h : (∃ s, env.seedVar = some s ∧ parseU64 s = none) ∨
         (∃ s, env.numVar = some s ∧ parseU64 s = none) ∨
         (∃ s, env.timeLimitVar = some s ∧ parseF64 s = none)) :
    ∃ ce, resolveConfig env = Except.error ce := by
  unfold resolveConfig
  rcases h with ⟨s, hs, hp⟩ | ⟨s, hs, hp⟩ | ⟨s, hs, hp⟩
  · have hr : resolveSeed env = Except.error ConfigError.badSeed := by
      simp only [resolveSeed, hs, hp]
    rw [hr]
    exact ⟨ConfigError.badSeed, rfl⟩
  · cases hr : resolveSeed env with
    | error e => exact ⟨e, rfl⟩
    | ok sd =>
      have hn : resolveNum env = Except.error ConfigError.badNum := by
        simp only [resolveNum, hs, hp]
      rw [hn]
      exact ⟨ConfigError.badNum, rfl⟩
  · cases hr : resolveSeed env with
    | error e => exact ⟨e, rfl⟩
    | ok sd =>
      cases hn : resolveNum env with
      | error e => exact ⟨e, rfl⟩
      | ok count0 =>
        have ht : resolveTimeLimit env = Except.error ConfigError.badTimeLimit := by
          simp only [resolveTimeLimit, hs, hp]
        rw [ht]
        exact ⟨ConfigError.badTimeLimit, rfl⟩

theorem parseDigits_lt (l : List Char) (n : Nat) (h : parseDigits l = some n) :
    n < 2 ^ 64 := by
  unfold parseDigits at h
  split_ifs at h
  injection h with h2
  omega

theorem parseU64_lt (s : String) (n : Nat) (h : parseU64 s = some n) : n < 2 ^ 64 := by
  unfold parseU64 at h
  cases hl : s.toList with
  | nil => rw [hl] at h; exact Option.noConfusion h
  | cons c rest =>
    rw [hl] at h
    have h2 : (if c = '+' then parseDigits rest else parseDigits (c :: rest)) = some n := h
    by_cases hc : c = '+'
    · rw [if_pos hc] at h2
      exact parseDigits_lt rest n h2
    · rw [if_neg hc] at h2
      exact parseDigits_lt (c :: rest) n h2

theorem resolved_seed_lt (env : Env) (cfg : RunConfig) (s : String)
    (hs : env.seedVar = some s) (h : resolveConfig env = Except.ok cfg) :
    cfg.seed < 2 ^ 64 := by
  obtain ⟨hseed, -, -, -, -⟩ := resolveConfig_ok env cfg h
  unfold resolveSeed at hseed
  simp only [hs] at hseed
  cases hp : parseU64 s with
  | none => simp only [hp] at hseed; exact Except.noConfusion hseed
  | some n =>
    simp only [hp] at hseed
    have hn : n = cfg.seed := by injection hseed
    rw [← hn]
    exact parseU64_lt s n hp

theorem iterSeed_lt (check : Bool) (base i : Nat) (hb : base < 2 ^ 64) :
    iterSeed check base i < 2 ^ 64 := by
  unfold iterSeed
  cases check with
  | true => simpa using hb
  | false =>
    simp only [Bool.false_eq_true, if_false]
    exact Nat.mod_lt _ (by norm_num)

/-! ## Claims settled at the resolution level -/

/-- C6: determinism-check mode is a presence flag: it is enabled exactly
when `MADSIM_TEST_CHECK_DETERMINISTIC` is present in the environment,
irrespective of its value, defaults to disabled when absent, and when
enabled it forces the iteration count to 2. -/
theorem c6_check_flag_presence (env : Env) (cfg : RunConfig)
    (h : resolveConfig env = Except.ok cfg) :
    cfg.check = env.checkVar.isSome ∧ (cfg.check = true → cfg.count = 2) := by
  obtain ⟨-, -, h1, h2, -⟩ := resolveConfig_ok env cfg h
  exact ⟨h1, h2⟩

def env6 : Env := ⟨some "3", some "10", none, some "whatever", 0⟩

def cfg6 : RunConfig := ⟨3, 2, none, true⟩

theorem c6_check_flag_presence_witness :
    resolveConfig env6 = Except.ok cfg6 ∧
    (cfg6.check = env6.checkVar.isSome ∧ (cfg6.check = true → cfg6.count = 2)) :=
  ⟨rfl, c6_check_flag_presence env6 cfg6 rfl⟩

/-- C7: when `MADSIM_TEST_SEED` is absent, the base seed defaults to the
whole seconds elapsed since the epoch at resolution time, so two
invocations whose resolution times are at least one whole second apart
obtain different (indeed strictly larger) default seeds. -/
theorem c7_default_seed_time (env1 env2 : Env) (c1 c2 : RunConfig)
    (h1 : env1.seedVar = none) (h2 : env2.seedVar = none)
    (hr1 : resolveConfig env1 = Except.ok c1) (hr2 : resolveConfig env2 = Except.ok c2)
    (hpos : 0 ≤ env1.now) (hgap : env1.now + 1 ≤ env2.now) :
    c1.seed = asSecs env1.now ∧ c2.seed = asSecs env2.now ∧ c1.seed < c2.seed := by
  obtain ⟨hs1, -, -, -, -⟩ := resolveConfig_ok env1 c1 hr1
  obtain ⟨hs2, -, -, -, -⟩ := resolveConfig_ok env2 c2 hr2
  rw [resolveSeed_default env1 h1] at hs1
  rw [resolveSeed_default env2 h2] at hs2
  have e1 : c1.seed = asSecs env1.now := by injection hs1 with h; exact h.symm
  have e2 : c2.seed = asSecs env2.now := by injection hs2 with h; exact h.symm
  refine ⟨e1, e2, ?_⟩
  rw [e1, e2]
  unfold asSecs
  have f0 : (0 : ℤ) ≤ ⌊env1.now⌋ := Int.le_floor.mpr (by exact_mod_cast hpos)
  have f1 : ⌊env1.now⌋ + 1 ≤ ⌊env2.now⌋ := by
    rw [← Int.floor_add_one]
    exact Int.floor_le_floor hgap
  omega

def env7a : Env := ⟨none, none, none, none, 0⟩

def env7b : Env := ⟨none, none, none, none, 1⟩

def cfg7a : RunConfig := ⟨0, 1, none, false⟩

def cfg7b : RunConfig := ⟨1, 1, none, false⟩

theorem c7_default_seed_time_witness :
    env7a.seedVar = none ∧ env7b.seedVar = none ∧
    resolveConfig env7a = Except.ok cfg7a ∧ resolveConfig env7b = Except.ok cfg7b ∧
    (0 : ℚ) ≤ env7a.now ∧ env7a.now + 1 ≤ env7b.now ∧
    (cfg7a.seed = asSecs env7a.now ∧ cfg7b.seed = asSecs env7b.now ∧
      cfg7a.seed < cfg7b.seed) :=
  ⟨rfl, rfl, rfl, rfl, by norm_num [env7a], by norm_num [env7a, env7b],
    c7_default_seed_time env7a env7b cfg7a cfg7b rfl rfl rfl rfl
      (by norm_num [env7a]) (by norm_num [env7a, env7b])⟩

/-- C5: if any present configuration variable is malformed (non-integer
seed, non-integer iteration count, or non-numeric time limit), resolution
fails before any iteration executes: no iteration trace is produced, the
test body is never run, and no seed-reproducibility line is printed. -/
theorem c5_malformed_aborts (env : Env) (oracle : Nat → Except E (Option RL))
    (h : (∃ s, env.seedVar = some s ∧ parseU64 s = none) ∨
         (∃ s, env.numVar = some s ∧ parseU64 s = none) ∨
         (∃ s, env.timeLimitVar = some s ∧ parseF64 s = none)) :
    ∃ ce, resolveConfig env = Except.error ce ∧
      runHarness env oracle = ⟨[], [], Except.error (HarnessError.config ce)⟩ ∧
      bodyRunsOf (runHarness env oracle) = 0 ∧
      (runHarness env oracle).printed = [] := by
  obtain ⟨ce, hce⟩ := resolve_error_of_malformed env h
  have hr : runHarness env oracle = ⟨[], [], Except.error (HarnessError.config ce)⟩ := by
    unfold runHarness
    rw [hce]
  exact ⟨ce, hce, hr, by rw [hr]; rfl, by rw [hr]⟩

def env5 : Env := ⟨some "1", none, some "abc", none, 0⟩

def orac5 : Nat → Except Nat (Option Nat) := fun i => Except.ok (some i)

theorem c5_malformed_aborts_witness :
    (∃ s, env5.timeLimitVar = some s ∧ parseF64 s = none) ∧
    (∃ ce, resolveConfig env5 = Except.error ce ∧
      runHarness env5 orac5 = ⟨[], [], Except.error (HarnessError.config ce)⟩ ∧
      bodyRunsOf (runHarness env5 orac5) = 0 ∧
      (runHarness env5 orac5).printed = []) :=
  ⟨⟨"abc", rfl, rfl⟩,
    c5_malformed_aborts env5 orac5 (Or.inr (Or.inr ⟨"abc", rfl, rfl⟩))⟩

/-- `f64` parsing accepts `inf` — such a value is NOT a malformed time
limit, so it is outside C5's hypothesis (resolution succeeds and the
failure, if any, happens later, inside iteration 0). -/
theorem parseF64_accepts_inf : parseF64 "inf" = some (FloatVal.inf false) := rfl

/-- `f64` parsing accepts a signed, case-insensitive `Infinity`. -/
theorem parseF64_accepts_neg_infinity :
    parseF64 "-Infinity" = some (FloatVal.inf true) := rfl

/-- `f64` parsing accepts a case-insensitive `NaN`. -/
theorem parseF64_accepts_nan : parseF64 "NaN" = some FloatVal.nan := rfl

/-- C9: an iteration count of 0 (with determinism-check unset) is accepted
rather than rejected: resolution succeeds with `count = 0`, the loop runs
zero iterations, the test body never executes, and the harness completes
successfully. -/
theorem c9_zero_iterations (env : Env) (cfg : RunConfig)
    (oracle : Nat → Except E (Option RL))
    (hnum : ∃ s, env.numVar = some s ∧ parseU64 s = some 0)
    (hcheck : env.checkVar = none)
    (hres : resolveConfig env = Except.ok cfg) :
    cfg.count = 0 ∧ runHarness env oracle = ⟨[], [], Except.ok ()⟩ ∧
      bodyRunsOf (runHarness env oracle) = 0 := by
  obtain ⟨-, -, hchk, -, hcnt⟩ := resolveConfig_ok env cfg hres
  have hc0 : cfg.check = false := by rw [hchk, hcheck]; rfl
  obtain ⟨s, hs, hp⟩ := hnum
  have hn : resolveNum env = Except.ok 0 := by simp only [resolveNum, hs, hp]
  have hval := hcnt hc0
  rw [hn] at hval
  have hcount : cfg.count = 0 := by injection hval with h; exact h.symm
  have hr : runHarness env oracle = ⟨[], [], Except.ok ()⟩ := by
    unfold runHarness
    rw [hres]
    show runLoop cfg.check cfg.seed cfg.time_limit oracle cfg.count 0 none =
      ⟨[], [], Except.ok ()⟩
    rw [hcount]
    rfl
  exact ⟨hcount, hr, by rw [hr]; rfl⟩

def env9 : Env := ⟨some "1", some "0", none, none, 0⟩

def cfg9 : RunConfig := ⟨1, 0, none, false⟩

def orac9 : Nat → Except Nat (Option Nat) := fun i => Except.ok (some i)

theorem c9_zero_iterations_witness :
    (∃ s, env9.numVar = some s ∧ parseU64 s = some 0) ∧ env9.checkVar = none ∧
    resolveConfig env9 = Except.ok cfg9 ∧
    (cfg9.count = 0 ∧ runHarness env9 orac9 = ⟨[], [], Except.ok ()⟩ ∧
      bodyRunsOf (runHarness env9 orac9) = 0) :=
  ⟨⟨"0", rfl, rfl⟩, rfl, rfl,
    c9_zero_iterations env9 cfg9 orac9 ⟨"0", rfl, rfl⟩ rfl rfl⟩

/-- C10: a seed value with a leading minus sign, or whose digits denote a
value at or above 2^64, fails `u64` parsing, so resolution aborts with the
seed configuration error before any iteration runs. -/
theorem c10_seed_unsigned (env : Env) (oracle : Nat → Except E (Option RL)) (s : String)
    (hseed : env.seedVar = some s)
    (hbad : s.toList.head? = some '-' ∨
      (s.toList.all Char.isDigit = true ∧ 2 ^ 64 ≤ digitsToNat s.toList)) :
    resolveConfig env = Except.error ConfigError.badSeed ∧
    runHarness env oracle =
      ⟨[], [], Except.error (HarnessError.config ConfigError.badSeed)⟩ := by
  have hp : parseU64 s = none := by
    rcases hbad with hneg | ⟨hdig, hbig⟩
    · cases hl : s.toList with
      | nil => rw [hl] at hneg; exact Option.noConfusion hneg
      | cons c rest =>
        rw [hl] at hneg
        simp only [List.head?_cons, Option.some.injEq] at hneg
        subst hneg
        have hm : ('-').isDigit = false := rfl
        simp only [parseU64, hl]
        rw [if_neg (by decide : ¬('-' = '+'))]
        unfold parseDigits
        rw [if_neg (by simp : ¬('-' :: rest = []))]
        have hall : ¬(('-' :: rest).all Char.isDigit = true) := by
          intro hall
          rw [List.all_cons, Bool.and_eq_true] at hall
          rw [hm] at hall
          exact Bool.noConfusion hall.1
        rw [if_neg hall]
    · cases hl : s.toList with
      | nil =>
        rw [hl] at hbig
        simp only [digitsToNat, List.foldl_nil] at hbig
        omega
      | cons c rest =>
        rw [hl] at hdig hbig
        have hcd : c.isDigit = true := by
          rw [List.all_cons, Bool.and_eq_true] at hdig
          exact hdig.1
        have hcp : ¬(c = '+') := by
          intro he
          rw [he] at hcd
          exact Bool.noConfusion hcd
        simp only [parseU64, hl]
        rw [if_neg hcp]
        unfold parseDigits
        rw [if_neg (by simp : ¬(c :: rest = []))]
        rw [List.all_cons, Bool.and_eq_true] at hdig
        rw [if_pos (by rw [List.all_cons, Bool.and_eq_true]; exact hdig :
          (c :: rest).all Char.isDigit = true)]
        rw [if_neg (by omega : ¬(digitsToNat (c :: rest) < 2 ^ 64))]
  have hrs : resolveSeed env = Except.error ConfigError.badSeed := by
    simp only [resolveSeed, hseed, hp]
  have hrc : resolveConfig env = Except.error ConfigError.badSeed := by
    unfold resolveConfig
    rw [hrs]
  refine ⟨hrc, ?_⟩
  unfold runHarness
  rw [hrc]

def env10 : Env := ⟨some "-3", none, none, none, 0⟩

def orac10 : Nat → Except Nat (Option Nat) := fun i => Except.ok (some i)

theorem c10_seed_unsigned_witness :
    env10.seedVar = some "-3" ∧ ("-3").toList.head? = some '-' ∧
    (resolveConfig env10 = Except.error ConfigError.badSeed ∧
      runHarness env10 orac10 =
        ⟨[], [], Except.error (HarnessError.config ConfigError.badSeed)⟩) :=
  ⟨rfl, rfl, c10_seed_unsigned env10 orac10 "-3" rfl (Or.inl rfl)⟩

/-! ## Loop-level lemmas -/

theorem runLoop_succ_ok (check : Bool) (base : Nat) (tl : Option FloatVal)
    (dur : Option Rat) (oracle : Nat → Except E (Option RL)) (f i : Nat)
    (log l0 : Option RL)
    (hdur : durOf tl = Except.ok dur)
    (h : oracle i = Except.ok l0) :
    runLoop check base tl oracle (f + 1) i log =
      ⟨iterTrace check (iterSeed check base i) log dur
          (Except.ok l0 : Except E (Option RL)) ::
          (runLoop check base tl oracle f (i + 1) l0).iters,
        (runLoop check base tl oracle f (i + 1) l0).printed,
        (runLoop check base tl oracle f (i + 1) l0).outcome⟩ := by
  simp only [runLoop, hdur, h]

theorem runLoop_succ_err (check : Bool) (base : Nat) (tl : Option FloatVal)
    (dur : Option Rat) (oracle : Nat → Except E (Option RL)) (f i : Nat)
    (log : Option RL) (e : E)
    (hdur : durOf tl = Except.ok dur)
    (h : oracle i = Except.error e) :
    runLoop check base tl oracle (f + 1) i log =
      ⟨[iterTrace check (iterSeed check base i) log dur
          (Except.error e : Except E (Option RL))],
        [seedLine (iterSeed check base i)], Except.error (HarnessError.test e)⟩ := by
  simp only [runLoop, hdur, h]

theorem runLoop_succ_dur (check : Bool) (base : Nat) (tl : Option FloatVal)
    (oracle : Nat → Except E (Option RL)) (f i : Nat) (log : Option RL)
    (hdur : durOf tl = Except.error ()) :
    runLoop check base tl oracle (f + 1) i log =
      ⟨[(iterTraceDur check (iterSeed check base i) log : List (Event RL))],
        [seedLine (iterSeed check base i)], Except.error HarnessError.duration⟩ := by
  simp only [runLoop, hdur]

theorem iterSeedOf_iterTrace (check : Bool) (s : Nat) (lg : Option RL)
    (tl : Option Rat) (res : Except E (Option RL)) :
    iterSeedOf (iterTrace check s lg tl res) = some s := rfl

theorem iterCheckLog_iterTrace_true (s : Nat) (lg : Option RL) (tl : Option Rat)
    (res : Except E (Option RL)) :
    iterCheckLog (iterTrace true s lg tl res) = some lg := by
  cases tl <;> cases res <;> rfl

theorem range_map_shift (g : Nat → Nat) (n i : Nat) :
    (List.range (n + 1)).map (fun j => g (i + j)) =
      g i :: (List.range n).map (fun j => g (i + 1 + j)) := by
  rw [List.range_succ_eq_map]
  simp only [List.map_cons, List.map_map, Nat.add_zero]
  congr 1
  apply List.map_congr_left
  intro a ha
  show g (i + (a + 1)) = g (i + 1 + a)
  congr 1
  omega

theorem runLoop_all_ok (check : Bool) (base : Nat) (tl : Option FloatVal)
    (dur : Option Rat) (oracle : Nat → Except E (Option RL))
    (hdur : durOf tl = Except.ok dur) :
    ∀ (fuel i : Nat) (log : Option RL),
      (∀ j, j < fuel → ∃ l, oracle (i + j) = Except.ok l) →
      (runLoop check base tl oracle fuel i log).iters.length = fuel ∧
      (runLoop check base tl oracle fuel i log).printed = [] ∧
      (runLoop check base tl oracle fuel i log).outcome = Except.ok () ∧
      seedsOfIters (runLoop check base tl oracle fuel i log).iters =
        (List.range fuel).map (fun j => iterSeed check base (i + j)) := by
  intro fuel
  induction fuel with
  | zero => intro i log h; exact ⟨rfl, rfl, rfl, rfl⟩
  | succ f ih =>
    intro i log h
    obtain ⟨l0, hl0⟩ := h 0 (Nat.succ_pos f)
    rw [Nat.add_zero] at hl0
    obtain ⟨ihl, ihp, iho, ihs⟩ := ih (i + 1) l0 (fun j hj => by
      have hh := h (j + 1) (by omega)
      rwa [show i + (j + 1) = i + 1 + j by omega] at hh)
    rw [runLoop_succ_ok check base tl dur oracle f i log l0 hdur hl0]
    refine ⟨by simp [ihl], ihp, iho, ?_⟩
    show seedsOfIters (iterTrace check (iterSeed check base i) log dur
        (Except.ok l0 : Except E (Option RL)) ::
        (runLoop check base tl oracle f (i + 1) l0).iters) = _
    rw [seedsOfIters, List.filterMap_cons]
    rw [iterSeedOf_iterTrace]
    rw [range_map_shift (iterSeed check base) f i]
    rw [← ihs]
    rfl

theorem runLoop_fail (check : Bool) (base : Nat) (tl : Option FloatVal)
    (dur : Option Rat) (oracle : Nat → Except E (Option RL)) (e : E)
    (hdur : durOf tl = Except.ok dur) :
    ∀ (k fuel i : Nat) (log : Option RL),
      k < fuel →
      (∀ j, j < k → ∃ l, oracle (i + j) = Except.ok l) →
      oracle (i + k) = Except.error e →
      (runLoop check base tl oracle fuel i log).iters.length = k + 1 ∧
      (runLoop check base tl oracle fuel i log).printed =
        [seedLine (iterSeed check base (i + k))] ∧
      (runLoop check base tl oracle fuel i log).outcome =
        Except.error (HarnessError.test e) ∧
      seedsOfIters (runLoop check base tl oracle fuel i log).iters =
        (List.range (k + 1)).map (fun j => iterSeed check base (i + j)) := by
  intro k
  induction k with
  | zero =>
    intro fuel i log hk hok hfail
    cases fuel with
    | zero => omega
    | succ f =>
      rw [Nat.add_zero] at hfail
      rw [runLoop_succ_err check base tl dur oracle f i log e hdur hfail]
      refine ⟨rfl, by rw [Nat.add_zero], rfl, ?_⟩
      show seedsOfIters [iterTrace check (iterSeed check base i) log dur
          (Except.error e : Except E (Option RL))] = _
      rw [seedsOfIters, List.filterMap_cons, iterSeedOf_iterTrace]
      simp [List.range_succ]
  | succ k ih =>
    intro fuel i log hk hok hfail
    cases fuel with
    | zero => omega
    | succ f =>
      obtain ⟨l0, hl0⟩ := hok 0 (Nat.succ_pos k)
      rw [Nat.add_zero] at hl0
      obtain ⟨ihl, ihp, iho, ihs⟩ := ih f (i + 1) l0 (by omega)
        (fun j hj => by
          have hh := hok (j + 1) (by omega)
          rwa [show i + (j + 1) = i + 1 + j by omega] at hh)
        (by rwa [show i + 1 + k = i + (k + 1) by omega])
      rw [runLoop_succ_ok check base tl dur oracle f i log l0 hdur hl0]
      refine ⟨by simp [ihl], ?_, iho, ?_⟩
      · show (runLoop check base tl oracle f (i + 1) l0).printed = _
        rw [ihp, show i + 1 + k = i + (k + 1) from by omega]
      · show seedsOfIters (iterTrace check (iterSeed check base i) log dur
            (Except.ok l0 : Except E (Option RL)) ::
            (runLoop check base tl oracle f (i + 1) l0).iters) = _
        rw [seedsOfIters, List.filterMap_cons, iterSeedOf_iterTrace]
        rw [range_map_shift (iterSeed check base) (k + 1) i]
        rw [← ihs]
        rfl

theorem runLoop_iters_shape (check : Bool) (base : Nat) (tl : Option FloatVal)
    (dur : Option Rat) (oracle : Nat → Except E (Option RL))
    (hdur : durOf tl = Except.ok dur) :
    ∀ (fuel i : Nat) (log : Option RL) (it : List (Event RL)),
      it ∈ (runLoop check base tl oracle fuel i log).iters →
      ∃ (s : Nat) (lg : Option RL) (res : Except E (Option RL)),
        it = iterTrace check s lg dur res := by
  intro fuel
  induction fuel with
  | zero =>
    intro i log it hm
    rw [show runLoop check base tl oracle 0 i log = ⟨[], [], Except.ok ()⟩ from rfl] at hm
    exact absurd hm (List.not_mem_nil it)
  | succ f ih =>
    intro i log it hm
    cases ho : oracle i with
    | error e =>
      rw [runLoop_succ_err check base tl dur oracle f i log e hdur ho] at hm
      simp only [List.mem_singleton] at hm
      exact ⟨_, _, _, hm⟩
    | ok l0 =>
      rw [runLoop_succ_ok check base tl dur oracle f i log l0 hdur ho] at hm
      simp only [List.mem_cons] at hm
      rcases hm with hm | hm
      · exact ⟨_, _, _, hm⟩
      · exact ih (i + 1) l0 it hm

theorem iterTrace_setTimeLimit_pos (check : Bool) (s : Nat) (lg : Option RL)
    (d : Rat) (res : Except E (Option RL)) :
    ∃ pre post, iterTrace check s lg (some d) res =
      pre ++ Event.setTimeLimit d :: Event.runBody :: post := by
  cases check with
  | false =>
    cases res with
    | ok l => exact ⟨[Event.create s], [Event.takeLog], rfl⟩
    | error e => exact ⟨[Event.create s], [], rfl⟩
  | true =>
    cases res with
    | ok l => exact ⟨[Event.create s, Event.enableCheck lg], [Event.takeLog], rfl⟩
    | error e => exact ⟨[Event.create s, Event.enableCheck lg], [], rfl⟩

theorem iterTrace_setTimeLimit_none (check : Bool) (s : Nat) (lg : Option RL)
    (res : Except E (Option RL)) (d : Rat) :
    Event.setTimeLimit d ∉ iterTrace check s lg none res := by
  cases check <;> cases res <;> simp [iterTrace]

/-! ## Decimal rendering round-trip (the printed seed is re-enterable) -/

theorem digitsToNat_append (l : List Char) (c : Char) :
    digitsToNat (l ++ [c]) = digitsToNat l * 10 + (c.toNat - 48) := by
  unfold digitsToNat
  rw [List.foldl_append]
  rfl

theorem digitChar_toNat (d : Nat) (h : d < 10) :
    (Char.ofNat (48 + d)).toNat = 48 + d := by
  interval_cases d <;> rfl

theorem digitChar_isDigit (d : Nat) (h : d < 10) :
    (Char.ofNat (48 + d)).isDigit = true := by
  interval_cases d <;> rfl

theorem natDigitsAux_spec (fuel : Nat) :
    ∀ n, n < fuel →
      natDigitsAux fuel n ≠ [] ∧ (natDigitsAux fuel n).all Char.isDigit = true ∧
        digitsToNat (natDigitsAux fuel n) = n := by
  induction fuel with
  | zero => intro n hn; omega
  | succ fuel ih =>
    intro n hn
    by_cases h : n < 10
    · rw [natDigitsAux, if_pos h]
      refine ⟨by simp, ?_, ?_⟩
      · simp [List.all_cons, digitChar_isDigit n h]
      · show digitsToNat [Char.ofNat (48 + n)] = n
        have ht := digitChar_toNat n h
        simp [digitsToNat, ht]
    · rw [natDigitsAux, if_neg h]
      have hlt : n / 10 < fuel := by
        have := Nat.div_lt_self (show 0 < n by omega) (show 1 < 10 by omega)
        omega
      obtain ⟨h1, h2, h3⟩ := ih (n / 10) hlt
      have hd : n % 10 < 10 := Nat.mod_lt n (by omega)
      refine ⟨by simp, ?_, ?_⟩
      · rw [List.all_append, h2]
        simp [digitChar_isDigit _ hd]
      · rw [digitsToNat_append, h3, digitChar_toNat _ hd]
        omega

theorem natDigits_spec (n : Nat) :
    natDigits n ≠ [] ∧ (natDigits n).all Char.isDigit = true ∧
      digitsToNat (natDigits n) = n :=
  natDigitsAux_spec (n + 1) n (Nat.lt_succ_self n)

theorem parse_toDecimalString (n : Nat) (h : n < 2 ^ 64) :
    parseU64 (toDecimalString n) = some n := by
  obtain ⟨h1, h2, h3⟩ := natDigits_spec n
  unfold toDecimalString parseU64
  have htl : (String.mk (natDigits n)).toList = natDigits n := rfl
  rw [htl]
  cases hl : natDigits n with
  | nil => exact absurd hl h1
  | cons c rest =>
    rw [hl] at h2 h3
    have hcd : c.isDigit = true := by
      rw [List.all_cons, Bool.and_eq_true] at h2
      exact h2.1
    have hcp : ¬(c = '+') := fun he => by
      rw [he] at hcd
      exact Bool.noConfusion hcd
    show (if c = '+' then parseDigits rest else parseDigits (c :: rest)) = some n
    rw [if_neg hcp]
    unfold parseDigits
    rw [if_neg (by simp : ¬(c :: rest = []))]
    rw [if_pos h2]
    rw [if_pos (by rw [h3]; exact h)]
    rw [h3]

/-! ## Claims about the iteration loop -/

/-- C1 (amended): with determinism-check enabled, and both iteration
closures completing — the configured time limit (if any) converting to a
valid `Duration` and both bodies succeeding — the harness runs exactly 2
iterations whatever iteration count was requested; both runtimes are
created with the base seed; iteration 0 enables the determinism check
with no prior log, and iteration 1 enables it with the rand log taken
from iteration 0.  (A non-convertible time limit instead makes
iteration 0 panic during setup, so only one iteration runs: see the
counterexample to the unamended claim.) -/
theorem c1_determinism_two_iterations (env : Env) (cfg : RunConfig)
    (oracle : Nat → Except E (Option RL)) (l0 l1 : Option RL) (dur : Option Rat)
    (hck : env.checkVar.isSome = true)
    (h : resolveConfig env = Except.ok cfg)
    (hdur : durOf cfg.time_limit = Except.ok dur)
    (h0 : oracle 0 = Except.ok l0) (h1 : oracle 1 = Except.ok l1) :
    cfg.count = 2 ∧
    (runHarness env oracle).iters.length = 2 ∧
    seedsOf (runHarness env oracle) = [cfg.seed, cfg.seed] ∧
    checkLogsOf (runHarness env oracle) = [none, l0] ∧
    (runHarness env oracle).outcome = Except.ok () := by
  obtain ⟨-, -, hchk, h2, -⟩ := resolveConfig_ok env cfg h
  have hc : cfg.check = true := by rw [hchk, hck]
  have hcount : cfg.count = 2 := h2 hc
  have hrun : runHarness env oracle =
      runLoop cfg.check cfg.seed cfg.time_limit oracle cfg.count 0 none := by
    unfold runHarness
    rw [h]
  rw [hrun, hcount, hc]
  rw [runLoop_succ_ok true cfg.seed cfg.time_limit dur oracle 1 0 none l0 hdur h0]
  rw [runLoop_succ_ok true cfg.seed cfg.time_limit dur oracle 0 1 l0 l1 hdur h1]
  rw [show runLoop true cfg.seed cfg.time_limit oracle 0 2 l1 =
    ⟨[], [], Except.ok ()⟩ from rfl]
  refine ⟨rfl, rfl, ?_, ?_, rfl⟩
  · show seedsOfIters [iterTrace true (iterSeed true cfg.seed 0) none dur
        (Except.ok l0 : Except E (Option RL)),
      iterTrace true (iterSeed true cfg.seed 1) l0 dur
        (Except.ok l1 : Except E (Option RL))] = [cfg.seed, cfg.seed]
    rw [seedsOfIters, List.filterMap_cons, iterSeedOf_iterTrace,
      List.filterMap_cons, iterSeedOf_iterTrace]
    rfl
  · show checkLogsOf
      (⟨[iterTrace true (iterSeed true cfg.seed 0) none dur
          (Except.ok l0 : Except E (Option RL)),
        iterTrace true (iterSeed true cfg.seed 1) l0 dur
          (Except.ok l1 : Except E (Option RL))], [], Except.ok ()⟩ :
        HarnessResult RL E) = [none, l0]
    rw [checkLogsOf]
    rw [List.filterMap_cons, iterCheckLog_iterTrace_true,
      List.filterMap_cons, iterCheckLog_iterTrace_true]
    rfl

/-- C2 (amended): for a configuration whose time limit (if any) converts
to a valid `Duration`, if iteration `k`'s body fails then exactly
iterations `0 .. k` were executed (none after `k`, even when the
requested count is larger), the runtimes were created with seeds
`seed(0), ..., seed(k)` — `seed(i)` being the base seed under
determinism-check and the wrapping `u64` sum `(base + i) mod 2^64`
otherwise — and the single printed seed line carries `seed(k)`, the seed
of the failing iteration. -/
theorem c2_failure_halts (env : Env) (cfg : RunConfig)
    (oracle : Nat → Except E (Option RL)) (k : Nat) (e : E) (dur : Option Rat)
    (h : resolveConfig env = Except.ok cfg)
    (hdur : durOf cfg.time_limit = Except.ok dur)
    (hk : k < cfg.count)
    (hok : ∀ j, j < k → ∃ l, oracle j = Except.ok l)
    (hfail : oracle k = Except.error e) :
    (runHarness env oracle).iters.length = k + 1 ∧
    seedsOf (runHarness env oracle) =
      (List.range (k + 1)).map (fun j => iterSeed cfg.check cfg.seed j) ∧
    (runHarness env oracle).printed = [seedLine (iterSeed cfg.check cfg.seed k)] := by
  have hrun : runHarness env oracle =
      runLoop cfg.check cfg.seed cfg.time_limit oracle cfg.count 0 none := by
    unfold runHarness
    rw [h]
  obtain ⟨hfl, hfp, hfo, hfs⟩ := runLoop_fail cfg.check cfg.seed cfg.time_limit dur
    oracle e hdur k cfg.count 0 none hk
    (fun j hj => by rw [Nat.zero_add]; exact hok j hj)
    (by rw [Nat.zero_add]; exact hfail)
  rw [hrun]
  refine ⟨hfl, ?_, ?_⟩
  · show seedsOfIters (runLoop cfg.check cfg.seed cfg.time_limit oracle
      cfg.count 0 none).iters = _
    rw [hfs]
    apply List.map_congr_left
    intro a ha
    rw [Nat.zero_add]
  · rw [hfp, Nat.zero_add]

/-- C3 (amended): with determinism-check disabled, a resolved count `N`
and a convertible time limit (if any), the `N` iterations (all of which
execute when every body succeeds) create their runtimes with the wrapping
`u64` seeds `(base + i) mod 2^64` for `i = 0 .. N-1`, one per iteration,
in iteration order; whenever `base + N ≤ 2^64` (no `u64` overflow) these
are exactly `base, base+1, ..., base+N-1`, strictly increasing.  (At a
base seed near 2^64 — admitted by `u64` parsing — the seeds wrap and are
not increasing: see the counterexample to the unamended claim.) -/
theorem c3_seed_sequence (env : Env) (cfg : RunConfig)
    (oracle : Nat → Except E (Option RL)) (dur : Option Rat)
    (hck : env.checkVar = none)
    (h : resolveConfig env = Except.ok cfg)
    (hdur : durOf cfg.time_limit = Except.ok dur)
    (hok : ∀ j, j < cfg.count → ∃ l, oracle j = Except.ok l) :
    (runHarness env oracle).iters.length = cfg.count ∧
    seedsOf (runHarness env oracle) =
      (List.range cfg.count).map (fun j => (cfg.seed + j) % 2 ^ 64) ∧
    (cfg.seed + cfg.count ≤ 2 ^ 64 →
      seedsOf (runHarness env oracle) =
        (List.range cfg.count).map (fun j => cfg.seed + j) ∧
      List.Pairwise (· < ·) (seedsOf (runHarness env oracle))) ∧
    (runHarness env oracle).outcome = Except.ok () := by
  obtain ⟨-, -, hchk, -, -⟩ := resolveConfig_ok env cfg h
  have hc : cfg.check = false := by rw [hchk, hck]; rfl
  have hrun : runHarness env oracle =
      runLoop cfg.check cfg.seed cfg.time_limit oracle cfg.count 0 none := by
    unfold runHarness
    rw [h]
  obtain ⟨hal, hap, hao, has⟩ := runLoop_all_ok cfg.check cfg.seed cfg.time_limit dur
    oracle hdur cfg.count 0 none (fun j hj => by rw [Nat.zero_add]; exact hok j hj)
  have hseeds : seedsOf (runHarness env oracle) =
      (List.range cfg.count).map (fun j => (cfg.seed + j) % 2 ^ 64) := by
    rw [hrun]
    show seedsOfIters (runLoop cfg.check cfg.seed cfg.time_limit oracle
      cfg.count 0 none).iters = _
    rw [has]
    apply List.map_congr_left
    intro a ha
    rw [Nat.zero_add, iterSeed, hc]
    rfl
  refine ⟨by rw [hrun]; exact hal, hseeds, fun hbound => ?_, by rw [hrun]; exact hao⟩
  have hflat : seedsOf (runHarness env oracle) =
      (List.range cfg.count).map (fun j => cfg.seed + j) := by
    rw [hseeds]
    apply List.map_congr_left
    intro a ha
    have haN : a < cfg.count := List.mem_range.mp ha
    exact Nat.mod_eq_of_lt (by omega)
  refine ⟨hflat, ?_⟩
  rw [hflat]
  refine List.Pairwise.map _ (fun a b hab => ?_) (List.pairwise_lt_range cfg.count)
  omega

/-- C4 (amended): for a configuration whose time limit (if any) converts
to a valid `Duration`, on an iteration body failure the harness prints
exactly one line, the option name followed by the decimal rendering of the
failing iteration's seed `seed(k)` (the wrapping `u64` value actually used
to create that iteration's runtime), and the outcome is the original
failure payload re-raised unchanged.  The printed decimal parses back to
exactly `seed(k)`, hence is directly re-enterable: unconditionally when
determinism-check is off (the wrapped sum is a `u64`), and whenever the
seed option was explicitly configured (then the base seed is a parsed
`u64`). -/
theorem c4_seed_line_and_reraise (env : Env) (cfg : RunConfig)
    (oracle : Nat → Except E (Option RL)) (k : Nat) (e : E) (dur : Option Rat)
    (h : resolveConfig env = Except.ok cfg)
    (hdur : durOf cfg.time_limit = Except.ok dur)
    (hk : k < cfg.count)
    (hok : ∀ j, j < k → ∃ l, oracle j = Except.ok l)
    (hfail : oracle k = Except.error e) :
    (runHarness env oracle).printed = [seedLine (iterSeed cfg.check cfg.seed k)] ∧
    seedLine (iterSeed cfg.check cfg.seed k) =
      "MADSIM_TEST_SEED=" ++ toDecimalString (iterSeed cfg.check cfg.seed k) ∧
    (cfg.check = false →
      parseU64 (toDecimalString (iterSeed cfg.check cfg.seed k)) =
        some (iterSeed cfg.check cfg.seed k)) ∧
    (env.seedVar.isSome = true →
      parseU64 (toDecimalString (iterSeed cfg.check cfg.seed k)) =
        some (iterSeed cfg.check cfg.seed k)) ∧
    (runHarness env oracle).outcome = Except.error (HarnessError.test e) := by
  have hrun : runHarness env oracle =
      runLoop cfg.check cfg.seed cfg.time_limit oracle cfg.count 0 none := by
    unfold runHarness
    rw [h]
  obtain ⟨hfl, hfp, hfo, hfs⟩ := runLoop_fail cfg.check cfg.seed cfg.time_limit dur
    oracle e hdur k cfg.count 0 none hk
    (fun j hj => by rw [Nat.zero_add]; exact hok j hj)
    (by rw [Nat.zero_add]; exact hfail)
  refine ⟨?_, rfl, ?_, ?_, ?_⟩
  · rw [hrun, hfp, Nat.zero_add]
  · intro hc
    refine parse_toDecimalString _ ?_
    rw [iterSeed, hc]
    simp only [Bool.false_eq_true, if_false]
    exact Nat.mod_lt _ (by norm_num)
  · intro hsv
    obtain ⟨s, hs⟩ := Option.isSome_iff_exists.mp hsv
    exact parse_toDecimalString _ (iterSeed_lt cfg.check cfg.seed k
      (resolved_seed_lt env cfg s hs h))
  · rw [hrun, hfo]

/-- C8 (amended): a time limit is configured exactly when the environment
variable is present (given resolution succeeded); when the configured
limit converts to a valid `Duration`, the converted duration is set on
every executed iteration's freshly created runtime immediately before the
test body runs; when no limit is configured, no `set_time_limit` call is
ever made; and when the configured limit does not convert (negative,
non-finite, or oversized — `Duration::from_secs_f64` panics), the first
iteration panics after runtime creation, before `set_time_limit` and
before the body, printing its seed line and aborting the run.  (The
unamended claim fails at a configured-but-non-convertible limit: see the
counterexample.) -/
theorem c8_time_limit_application (env : Env) (cfg : RunConfig)
    (oracle : Nat → Except E (Option RL))
    (h : resolveConfig env = Except.ok cfg) :
    cfg.time_limit.isSome = env.timeLimitVar.isSome ∧
    (∀ v d, cfg.time_limit = some v → durFromSecsF64 v = some d →
      ∀ it ∈ (runHarness env oracle).iters,
        ∃ pre post, it = pre ++ Event.setTimeLimit d :: Event.runBody :: post) ∧
    (cfg.time_limit = none →
      ∀ it ∈ (runHarness env oracle).iters, ∀ d, Event.setTimeLimit d ∉ it) ∧
    (∀ v, cfg.time_limit = some v → durFromSecsF64 v = none → 0 < cfg.count →
      (runHarness env oracle).iters =
        [iterTraceDur cfg.check (iterSeed cfg.check cfg.seed 0) none] ∧
      (runHarness env oracle).printed = [seedLine (iterSeed cfg.check cfg.seed 0)] ∧
      (runHarness env oracle).outcome = Except.error HarnessError.duration) := by
  obtain ⟨-, htl, -, -, -⟩ := resolveConfig_ok env cfg h
  have hrun : runHarness env oracle =
      runLoop cfg.check cfg.seed cfg.time_limit oracle cfg.count 0 none := by
    unfold runHarness
    rw [h]
  refine ⟨resolveTimeLimit_isSome env cfg.time_limit htl, ?_, ?_, ?_⟩
  · intro v d hv hd it hit
    rw [hrun] at hit
    have hdur : durOf cfg.time_limit = Except.ok (some d) := by
      rw [hv]
      simp only [durOf, hd]
    obtain ⟨s, lg, res, hshape⟩ := runLoop_iters_shape cfg.check cfg.seed cfg.time_limit
      (some d) oracle hdur cfg.count 0 none it hit
    rw [hshape]
    exact iterTrace_setTimeLimit_pos cfg.check s lg d res
  · intro hnone it hit d
    rw [hrun] at hit
    have hdur : durOf cfg.time_limit = Except.ok none := by
      rw [hnone]
      rfl
    obtain ⟨s, lg, res, hshape⟩ := runLoop_iters_shape cfg.check cfg.seed cfg.time_limit
      none oracle hdur cfg.count 0 none it hit
    rw [hshape]
    exact iterTrace_setTimeLimit_none cfg.check s lg res d
  · intro v hv hd hcount
    have hdur : durOf cfg.time_limit = Except.error () := by
      rw [hv]
      simp only [durOf, hd]
    cases hc : cfg.count with
    | zero => omega
    | succ m =>
      have hstep := runLoop_succ_dur cfg.check cfg.seed cfg.time_limit oracle m 0
        (none : Option RL) hdur
      rw [hrun, hc, hstep]
      exact ⟨rfl, rfl, rfl⟩

/-! ## Concrete witnesses for the loop-level claims -/

def env1 : Env := ⟨some "7", some "5", none, some "1", 0⟩

def cfg1 : RunConfig := ⟨7, 2, none, true⟩

def orac1 : Nat → Except Nat (Option Nat) := fun i => Except.ok (some (100 + i))

theorem c1_determinism_two_iterations_witness :
    env1.checkVar.isSome = true ∧ resolveConfig env1 = Except.ok cfg1 ∧
    durOf cfg1.time_limit = Except.ok none ∧
    orac1 0 = Except.ok (some 100) ∧ orac1 1 = Except.ok (some 101) ∧
    (cfg1.count = 2 ∧ (runHarness env1 orac1).iters.length = 2 ∧
      seedsOf (runHarness env1 orac1) = [cfg1.seed, cfg1.seed] ∧
      checkLogsOf (runHarness env1 orac1) = [none, some 100] ∧
      (runHarness env1 orac1).outcome = Except.ok ()) :=
  ⟨rfl, rfl, rfl, rfl, rfl,
    c1_determinism_two_iterations env1 cfg1 orac1 (some 100) (some 101) none
      rfl rfl rfl rfl rfl⟩

def env2 : Env := ⟨some "10", some "4", none, none, 0⟩

def cfg2 : RunConfig := ⟨10, 4, none, false⟩

def orac2 : Nat → Except Nat (Option Nat) :=
  fun i => if i = 2 then Except.error 5 else Except.ok (some i)

theorem c2_failure_halts_witness :
    resolveConfig env2 = Except.ok cfg2 ∧ durOf cfg2.time_limit = Except.ok none ∧
    2 < cfg2.count ∧ orac2 2 = Except.error 5 ∧
    ((runHarness env2 orac2).iters.length = 2 + 1 ∧
      seedsOf (runHarness env2 orac2) =
        (List.range (2 + 1)).map (fun j => iterSeed cfg2.check cfg2.seed j) ∧
      (runHarness env2 orac2).printed = [seedLine (iterSeed cfg2.check cfg2.seed 2)]) :=
  ⟨rfl, rfl, by decide, rfl,
    c2_failure_halts env2 cfg2 orac2 2 5 none rfl rfl (by decide)
      (fun j hj => ⟨some j, by
        have hne : ¬(j = 2) := by omega
        simp [orac2, hne]⟩)
      rfl⟩

def env3 : Env := ⟨some "42", some "3", none, none, 0⟩

def cfg3 : RunConfig := ⟨42, 3, none, false⟩

def orac3 : Nat → Except Nat (Option Nat) := fun i => Except.ok (some i)

theorem c3_seed_sequence_witness :
    env3.checkVar = none ∧ resolveConfig env3 = Except.ok cfg3 ∧
    durOf cfg3.time_limit = Except.ok none ∧
    ((runHarness env3 orac3).iters.length = cfg3.count ∧
      seedsOf (runHarness env3 orac3) =
        (List.range cfg3.count).map (fun j => (cfg3.seed + j) % 2 ^ 64) ∧
      (cfg3.seed + cfg3.count ≤ 2 ^ 64 →
        seedsOf (runHarness env3 orac3) =
          (List.range cfg3.count).map (fun j => cfg3.seed + j) ∧
        List.Pairwise (· < ·) (seedsOf (runHarness env3 orac3))) ∧
      (runHarness env3 orac3).outcome = Except.ok ()) :=
  ⟨rfl, rfl, rfl,
    c3_seed_sequence env3 cfg3 orac3 none rfl rfl rfl (fun j _hj => ⟨some j, rfl⟩)⟩

def env4 : Env := ⟨some "5", some "4", none, none, 0⟩

def cfg4 : RunConfig := ⟨5, 4, none, false⟩

def orac4 : Nat → Except Nat (Option Nat) :=
  fun i => if i = 2 then Except.error 9 else Except.ok (some i)

theorem c4_seed_line_and_reraise_witness :
    resolveConfig env4 = Except.ok cfg4 ∧ durOf cfg4.time_limit = Except.ok none ∧
    2 < cfg4.count ∧ orac4 2 = Except.error 9 ∧
    ((runHarness env4 orac4).printed = [seedLine (iterSeed cfg4.check cfg4.seed 2)] ∧
      seedLine (iterSeed cfg4.check cfg4.seed 2) =
        "MADSIM_TEST_SEED=" ++ toDecimalString (iterSeed cfg4.check cfg4.seed 2) ∧
      (cfg4.check = false →
        parseU64 (toDecimalString (iterSeed cfg4.check cfg4.seed 2)) =
          some (iterSeed cfg4.check cfg4.seed 2)) ∧
      (env4.seedVar.isSome = true →
        parseU64 (toDecimalString (iterSeed cfg4.check cfg4.seed 2)) =
          some (iterSeed cfg4.check cfg4.seed 2)) ∧
      (runHarness env4 orac4).outcome = Except.error (HarnessError.test 9)) :=
  ⟨rfl, rfl, by decide, rfl,
    c4_seed_line_and_reraise env4 cfg4 orac4 2 9 none rfl rfl (by decide)
      (fun j hj => ⟨some j, by
        have hne : ¬(j = 2) := by omega
        simp [orac4, hne]⟩)
      rfl⟩

def env8 : Env := ⟨some "5", some "2", some "1.5", none, 0⟩

def cfg8 : RunConfig :=
  ⟨5, 2, some (FloatVal.finite (decimalVal false ['1'] ['5'] 0)), false⟩

def orac8 : Nat → Except Nat (Option Nat) := fun i => Except.ok (some i)

/-- The witness's 1.5-second limit does convert to a `Duration`, so the
applied-before-the-body conjunct of the C8 theorem is not vacuous at the
witness input. -/
theorem durFromSecsF64_env8_limit :
    durFromSecsF64 (FloatVal.finite (decimalVal false ['1'] ['5'] 0)) =
      some (decimalVal false ['1'] ['5'] 0) := by
  have e1 : digitsToNat ['1'] = 1 := rfl
  have e5 : digitsToNat ['5'] = 5 := rfl
  have hval : decimalVal false ['1'] ['5'] 0 = 3 / 2 := by
    simp only [decimalVal, e1, e5]
    norm_num
  have hcond : 0 ≤ decimalVal false ['1'] ['5'] 0 ∧
      decimalVal false ['1'] ['5'] 0 < 2 ^ 64 := by
    rw [hval]
    constructor <;> norm_num
  show (if 0 ≤ decimalVal false ['1'] ['5'] 0 ∧ decimalVal false ['1'] ['5'] 0 < 2 ^ 64
      then some (decimalVal false ['1'] ['5'] 0) else none) =
    some (decimalVal false ['1'] ['5'] 0)
  rw [if_pos hcond]

theorem c8_time_limit_application_witness :
    resolveConfig env8 = Except.ok cfg8 ∧
    durFromSecsF64 (FloatVal.finite (decimalVal false ['1'] ['5'] 0)) =
      some (decimalVal false ['1'] ['5'] 0) ∧
    (cfg8.time_limit.isSome = env8.timeLimitVar.isSome ∧
      (∀ v d, cfg8.time_limit = some v → durFromSecsF64 v = some d →
        ∀ it ∈ (runHarness env8 orac8).iters,
          ∃ pre post, it = pre ++ Event.setTimeLimit d :: Event.runBody :: post) ∧
      (cfg8.time_limit = none →
        ∀ it ∈ (runHarness env8 orac8).iters, ∀ d, Event.setTimeLimit d ∉ it) ∧
      (∀ v, cfg8.time_limit = some v → durFromSecsF64 v = none → 0 < cfg8.count →
        (runHarness env8 orac8).iters =
          [iterTraceDur cfg8.check (iterSeed cfg8.check cfg8.seed 0) none] ∧
        (runHarness env8 orac8).printed = [seedLine (iterSeed cfg8.check cfg8.seed 0)] ∧
        (runHarness env8 orac8).outcome = Except.error HarnessError.duration)) :=
  ⟨rfl, durFromSecsF64_env8_limit, c8_time_limit_application env8 cfg8 orac8 rfl⟩

/-! ## Counterexamples to the unamended claims

Each theorem below exhibits a concrete configuration on which the claim
as originally stated is false of the program: the `u64` seed sum wraps
(lines 96), or `Duration::from_secs_f64` panics before `set_time_limit`
and the body (line 104). -/

def env1x : Env := ⟨some "7", some "9", some "nan", some "1", 0⟩

def cfg1x : RunConfig := ⟨7, 2, some FloatVal.nan, true⟩

def orac1x : Nat → Except Nat (Option Nat) := fun i => Except.ok (some (100 + i))

/-- C1 counterexample: with determinism-check enabled, a requested count
of 9 and the time limit `nan` (accepted by `f64` parsing), resolution
succeeds and both bodies would succeed, yet only one iteration runs: the
`Duration` conversion panics during iteration 0's setup, so the harness
does not run exactly 2 iterations. -/
theorem c1_counterexample :
    env1x.checkVar.isSome = true ∧
    resolveConfig env1x = Except.ok cfg1x ∧
    orac1x 0 = Except.ok (some 100) ∧ orac1x 1 = Except.ok (some 101) ∧
    cfg1x.count = 2 ∧
    (runHarness env1x orac1x).iters.length = 1 ∧
    (runHarness env1x orac1x).iters.length ≠ 2 ∧
    (runHarness env1x orac1x).outcome = Except.error HarnessError.duration :=
  ⟨rfl, rfl, rfl, rfl, rfl, rfl, by decide, rfl⟩

def env2x : Env := ⟨some "18446744073709551615", some "2", none, none, 0⟩

def cfg2x : RunConfig := ⟨18446744073709551615, 2, none, false⟩

def orac2x : Nat → Except Nat (Option Nat) :=
  fun i => if i = 1 then Except.error 5 else Except.ok (some i)

/-- C2 counterexample: with the maximal `u64` base seed (accepted by seed
parsing) and a failure at iteration 1, the loop halts after iteration 1
as claimed, but the reported seed is the wrapped `u64` value 0, not
`seed(1) = base_seed + 1 = 2^64`. -/
theorem c2_counterexample :
    resolveConfig env2x = Except.ok cfg2x ∧
    1 < cfg2x.count ∧
    orac2x 0 = Except.ok (some 0) ∧ orac2x 1 = Except.error 5 ∧
    (runHarness env2x orac2x).iters.length = 1 + 1 ∧
    (runHarness env2x orac2x).printed = [seedLine 0] ∧
    (runHarness env2x orac2x).printed ≠ [seedLine (cfg2x.seed + 1)] :=
  ⟨rfl, by decide, rfl, rfl, rfl, rfl, by decide⟩

def env3x : Env := ⟨some "18446744073709551615", some "2", none, none, 0⟩

def cfg3x : RunConfig := ⟨18446744073709551615, 2, none, false⟩

def orac3x : Nat → Except Nat (Option Nat) := fun i => Except.ok (some i)

/-- C3 counterexample: with the maximal `u64` base seed and count 2, both
iterations succeed but the seeds used are the wrapped values
`[2^64 - 1, 0]` — neither `base_seed, base_seed + 1` nor strictly
increasing. -/
theorem c3_counterexample :
    env3x.checkVar = none ∧
    resolveConfig env3x = Except.ok cfg3x ∧
    (∀ j, j < cfg3x.count → ∃ l, orac3x j = Except.ok l) ∧
    seedsOf (runHarness env3x orac3x) = [18446744073709551615, 0] ∧
    seedsOf (runHarness env3x orac3x) ≠
      (List.range cfg3x.count).map (fun j => cfg3x.seed + j) ∧
    ¬ List.Pairwise (· < ·) (seedsOf (runHarness env3x orac3x)) :=
  ⟨rfl, rfl, fun j _hj => ⟨some j, rfl⟩, rfl, by decide, by decide⟩

def env4x : Env := ⟨some "18446744073709551615", some "2", none, none, 0⟩

def cfg4x : RunConfig := ⟨18446744073709551615, 2, none, false⟩

def orac4x : Nat → Except Nat (Option Nat) :=
  fun i => if i = 1 then Except.error 9 else Except.ok (some i)

/-- C4 counterexample: at the maximal `u64` base seed with a failure at
iteration 1, the line the program prints is `MADSIM_TEST_SEED=0` (the
wrapped seed actually used), not the line naming `base_seed + 1`; the
original failure payload is still re-raised unchanged. -/
theorem c4_counterexample :
    resolveConfig env4x = Except.ok cfg4x ∧
    orac4x 0 = Except.ok (some 0) ∧ orac4x 1 = Except.error 9 ∧ 1 < cfg4x.count ∧
    (runHarness env4x orac4x).printed = ["MADSIM_TEST_SEED=0"] ∧
    "MADSIM_TEST_SEED=0" ≠
      "MADSIM_TEST_SEED=" ++ toDecimalString (cfg4x.seed + 1) ∧
    (runHarness env4x orac4x).outcome = Except.error (HarnessError.test 9) :=
  ⟨rfl, rfl, rfl, by decide, rfl, by decide, rfl⟩

def env8x : Env := ⟨some "5", some "1", some "nan", none, 0⟩

def cfg8x : RunConfig := ⟨5, 1, some FloatVal.nan, false⟩

def orac8x : Nat → Except Nat (Option Nat) := fun i => Except.ok (some i)

/-- C8 counterexample: with the time limit `nan` (accepted by `f64`
parsing) a limit is configured, yet the executed iteration's trace is
only the runtime creation: `Duration::from_secs_f64` panics before
`set_time_limit` is ever called and the body never runs, so the
configured limit is not applied to the adapter before the body. -/
theorem c8_counterexample :
    resolveConfig env8x = Except.ok cfg8x ∧
    cfg8x.time_limit = some FloatVal.nan ∧
    (runHarness env8x orac8x).iters = [[Event.create 5]] ∧
    ¬ (∀ it ∈ (runHarness env8x orac8x).iters, ∃ d pre post,
        it = pre ++ Event.setTimeLimit d :: Event.runBody :: post) ∧
    (runHarness env8x orac8x).printed = [seedLine 5] ∧
    (runHarness env8x orac8x).outcome = Except.error HarnessError.duration := by
  refine ⟨rfl, rfl, rfl, ?_, rfl, rfl⟩
  intro hall
  obtain ⟨d, pre, post, heq⟩ := hall [Event.create 5] (by
    rw [show (runHarness env8x orac8x).iters = [[Event.create 5]] from rfl]
    exact List.mem_singleton.mpr rfl)
  have hlen := congrArg List.length heq
  simp [List.length_append] at hlen
  omega

end Madsim
